import Mathlib

/-
Verification of the task-list view and form validators of the
jinwoo_cloud_scheduler frontend.

Embedded source files:
  * frontend/src/utils/validate.js  (isExternal, validateEmail, validatePath)
  * frontend/src/api/user.js        (the Task list Vue component: filters,
    data, created/beforeDestroy hooks, getList, handleDelete, deleteTask)

JavaScript regular expressions are embedded via a small regex AST together
with a Brzozowski-derivative matcher.  The Vue component is embedded as a
record of its reactive fields together with one Lean function per method,
taking the outcome of the asynchronous HTTP call as an explicit argument.
-/

namespace CloudScheduler

/-! ## Regular expressions (shallow embedding of JavaScript RegExp)

`RE` covers exactly the constructs used by the three patterns in
frontend/src/utils/validate.js: character classes, concatenation,
alternation and Kleene star.  `+`, `?`, `{1,3}` and `{2,}` are desugared
in the standard way.  A fully anchored pattern `^r$` tested with
`RegExp.test` is full-list matching (`matchList`); a pattern anchored only
at the start (`^r`, as in `isExternal`) tests whether some prefix of the
input matches (`matchStart`). -/

inductive RE where
  | empty : RE
  | eps : RE
  | cls : (Char → Bool) → RE
  | cat : RE → RE → RE
  | alt : RE → RE → RE
  | star : RE → RE

/-- Does `r` accept the empty string? -/
def nullable : RE → Bool
  | .empty => false
  | .eps => true
  | .cls _ => false
  | .cat r s => nullable r && nullable s
  | .alt r s => nullable r || nullable s
  | .star _ => true

/-- Smart concatenation (keeps derivatives small). -/
def mkCat : RE → RE → RE
  | .empty, _ => .empty
  | _, .empty => .empty
  | .eps, s => s
  | r, .eps => r
  | r, s => .cat r s

/-- Smart alternation (keeps derivatives small). -/
def mkAlt : RE → RE → RE
  | .empty, s => s
  | r, .empty => r
  | r, s => .alt r s

/-- Brzozowski derivative of `r` by the character `c`. -/
def deriv : RE → Char → RE
  | .empty, _ => .empty
  | .eps, _ => .empty
  | .cls p, c => if p c then .eps else .empty
  | .cat r s, c =>
      if nullable r then mkAlt (mkCat (deriv r c) s) (deriv s c)
      else mkCat (deriv r c) s
  | .alt r s, c => mkAlt (deriv r c) (deriv s c)
  | .star r, c => mkCat (deriv r c) (.star r)

/-- Full match of a character list against `r` (a `^r$` test). -/
def matchList (r : RE) (cs : List Char) : Bool :=
  nullable (cs.foldl deriv r)

/-- Does some prefix of the input match `r` (a `^r` test)? -/
def matchStart : RE → List Char → Bool
  | r, [] => nullable r
  | r, c :: cs => nullable r || matchStart (deriv r c) cs

/-- Single literal character. -/
def chr (c : Char) : RE := .cls (fun d => d == c)

/-- Literal character sequence. -/
def lit : List Char → RE
  | [] => .eps
  | c :: cs => .cat (chr c) (lit cs)

/-- `r+` desugared. -/
def rPlus (r : RE) : RE := .cat r (.star r)

/-- `r?` desugared. -/
def rOpt (r : RE) : RE := .alt r .eps

/-! ## The three validators of frontend/src/utils/validate.js -/

/-- JavaScript `\s` (whitespace class). -/
def isJsSpace (c : Char) : Bool :=
  c == ' ' || c == '\t' || c == '\n' || c == '\x0b' || c == '\x0c' ||
  c == '\r' || c == ' ' || c == ' ' ||
  (' ' ≤ c && c ≤ ' ') || c == ' ' || c == ' ' ||
  c == ' ' || c == ' ' || c == '　' || c == '﻿'

/-- The negated class `[^<>()\[\]\\.,;:\s@"]` of the email pattern. -/
def emailLocalChar (c : Char) : Bool :=
  !(c == '<' || c == '>' || c == '(' || c == ')' || c == '[' || c == ']' ||
    c == '\\' || c == '.' || c == ',' || c == ';' || c == ':' ||
    isJsSpace c || c == '@' || c == '"')

/-- JavaScript `.` (any character but a line terminator). -/
def dotChar (c : Char) : Bool :=
  !(c == '\n' || c == '\r' || c == ' ' || c == ' ')

/-- `[0-9]`. -/
def digitChar (c : Char) : Bool := '0' ≤ c && c ≤ '9'

/-- `[a-zA-Z]`. -/
def alphaChar (c : Char) : Bool :=
  ('a' ≤ c && c ≤ 'z') || ('A' ≤ c && c ≤ 'Z')

/-- `[a-zA-Z\-0-9]`. -/
def alnumDashChar (c : Char) : Bool :=
  alphaChar c || digitChar c || c == '-'

/-- Local part `(([^…]+(\.[^…]+)*)|(".+"))` of the email pattern. -/
def emailLocalRE : RE :=
  .alt
    (.cat (rPlus (.cls emailLocalChar))
          (.star (.cat (chr '.') (rPlus (.cls emailLocalChar)))))
    (.cat (chr '"') (.cat (rPlus (.cls dotChar)) (chr '"')))

/-- `[0-9]{1,3}` desugared as `[0-9][0-9]?[0-9]?`. -/
def digit13RE : RE :=
  .cat (.cls digitChar) (.cat (rOpt (.cls digitChar)) (rOpt (.cls digitChar)))

/-- The bracketed-IP alternative `\[[0-9]{1,3}\.[0-9]{1,3}\.[0-9]{1,3}\.[0-9]{1,3}]`. -/
def emailIpRE : RE :=
  .cat (chr '[')
    (.cat digit13RE
      (.cat (chr '.')
        (.cat digit13RE
          (.cat (chr '.')
            (.cat digit13RE
              (.cat (chr '.') (.cat digit13RE (chr ']'))))))))

/-- The domain alternative `([a-zA-Z\-0-9]+\.)+[a-zA-Z]{2,}`. -/
def emailDomainRE : RE :=
  .cat (rPlus (.cat (rPlus (.cls alnumDashChar)) (chr '.')))
       (.cat (.cls alphaChar) (.cat (.cls alphaChar) (.star (.cls alphaChar))))

/-- Body of the anchored email pattern of `validateEmail`. -/
def emailRE : RE :=
  .cat emailLocalRE (.cat (chr '@') (.alt emailIpRE emailDomainRE))

/-- `validateEmail(email)`:
`return /^(([^<>()\[\]\\.,;:\s@"]+(\.[^<>()\[\]\\.,;:\s@"]+)*)|(".+"))@((\[[0-9]{1,3}\.[0-9]{1,3}\.[0-9]{1,3}\.[0-9]{1,3}])|(([a-zA-Z\-0-9]+\.)+[a-zA-Z]{2,}))$/.test(email)`. -/
def validateEmail (email : String) : Bool :=
  matchList emailRE email.data

/-- The negated class `[^\\/:*?"<>|]` of the path pattern. -/
def pathChar (c : Char) : Bool :=
  !(c == '\\' || c == '/' || c == ':' || c == '*' || c == '?' ||
    c == '"' || c == '<' || c == '>' || c == '|')

/-- Body of the anchored path pattern `\/?([^\\/:*?"<>|]+\/?)+`. -/
def pathRE : RE :=
  .cat (rOpt (chr '/')) (rPlus (.cat (rPlus (.cls pathChar)) (rOpt (chr '/'))))

/-- `validatePath(path)`: `return /^\/?([^\\/:*?"<>|]+\/?)+$/.test(path)`. -/
def validatePath (path : String) : Bool :=
  matchList pathRE path.data

/-- Body of the start-anchored pattern `(https?:|mailto:|tel:)`. -/
def externalRE : RE :=
  .alt (.cat (lit ['h', 't', 't', 'p']) (.cat (rOpt (chr 's')) (chr ':')))
       (.alt (lit ['m', 'a', 'i', 'l', 't', 'o', ':'])
             (lit ['t', 'e', 'l', ':']))

/-- `isExternal(path)`: `return /^(https?:|mailto:|tel:)/.test(path)`. -/
def isExternal (path : String) : Bool :=
  matchStart externalRE path.data

/-! ### Character soundness of the matcher

`void r` is a syntactic under-approximation of "`r` matches nothing".
`Respects P r` says every character class of `r` only accepts characters
satisfying `P`.  Together they give: a list accepted by `r` consists only
of characters satisfying `P` (`all_of_matchList`), which settles the
negative half of the `validatePath` property. -/

/-- Syntactic emptiness check: `void r = true` implies `r` matches no list. -/
def void : RE → Bool
  | .empty => true
  | .eps => false
  | .cls _ => false
  | .cat r s => void r || void s
  | .alt r s => void r && void s
  | .star _ => false

theorem nullable_eq_false_of_void (r : RE) (h : void r = true) :
    nullable r = false := by
  induction r with
  | empty => rfl
  | eps => simp [void] at h
  | cls p => rfl
  | cat r s ihr ihs =>
      simp only [void, Bool.or_eq_true] at h
      rcases h with h | h
      · simp [nullable, ihr h]
      · simp [nullable, ihs h]
  | alt r s ihr ihs =>
      simp only [void, Bool.and_eq_true] at h
      simp [nullable, ihr h.1, ihs h.2]
  | star r ih => simp [void] at h

theorem void_mkCat_left (r s : RE) (h : void r = true) :
    void (mkCat r s) = true := by
  cases r <;> cases s <;> simp_all [mkCat, void]

theorem void_mkCat_right (r s : RE) (h : void s = true) :
    void (mkCat r s) = true := by
  cases r <;> cases s <;> simp_all [mkCat, void]

theorem void_mkAlt (r s : RE) (hr : void r = true) (hs : void s = true) :
    void (mkAlt r s) = true := by
  cases r <;> cases s <;> simp_all [mkAlt, void]

theorem void_deriv (r : RE) (c : Char) (h : void r = true) :
    void (deriv r c) = true := by
  induction r with
  | empty => rfl
  | eps => simp [void] at h
  | cls p => simp [void] at h
  | cat r s ihr ihs =>
      simp only [void, Bool.or_eq_true] at h
      rcases h with h | h
      · rw [deriv, if_neg (by simp [nullable_eq_false_of_void r h])]
        exact void_mkCat_left _ _ (ihr h)
      · by_cases hn : nullable r = true
        · rw [deriv, if_pos hn]
          exact void_mkAlt _ _ (void_mkCat_right _ _ h) (ihs h)
        · rw [deriv, if_neg hn]
          exact void_mkCat_right _ _ h
  | alt r s ihr ihs =>
      simp only [void, Bool.and_eq_true] at h
      exact void_mkAlt _ _ (ihr h.1) (ihs h.2)
  | star r ih => simp [void] at h

theorem matchList_eq_false_of_void (r : RE) (cs : List Char) (h : void r = true) :
    matchList r cs = false := by
  induction cs generalizing r with
  | nil => simpa [matchList, List.foldl] using nullable_eq_false_of_void r h
  | cons c cs ih =>
      simpa [matchList, List.foldl] using ih (deriv r c) (void_deriv r c h)

/-- Every character class of `r` only accepts characters satisfying `P`. -/
def Respects (P : Char → Prop) : RE → Prop
  | .empty => True
  | .eps => True
  | .cls p => ∀ c, p c = true → P c
  | .cat r s => Respects P r ∧ Respects P s
  | .alt r s => Respects P r ∧ Respects P s
  | .star r => Respects P r

theorem respects_mkCat {P : Char → Prop} (r s : RE)
    (hr : Respects P r) (hs : Respects P s) : Respects P (mkCat r s) := by
  cases r <;> cases s <;> simp_all [mkCat, Respects]

theorem respects_mkAlt {P : Char → Prop} (r s : RE)
    (hr : Respects P r) (hs : Respects P s) : Respects P (mkAlt r s) := by
  cases r <;> cases s <;> simp_all [mkAlt, Respects]

theorem respects_deriv {P : Char → Prop} (r : RE) (c : Char)
    (h : Respects P r) : Respects P (deriv r c) := by
  induction r with
  | empty => trivial
  | eps => trivial
  | cls p =>
      by_cases hp : p c
      · simp [deriv, hp, Respects]
      · simp [deriv, hp, Respects]
  | cat r s ihr ihs =>
      rcases h with ⟨hr, hs⟩
      by_cases hn : nullable r = true
      · rw [deriv, if_pos hn]
        exact respects_mkAlt _ _ (respects_mkCat _ _ (ihr hr) hs) (ihs hs)
      · rw [deriv, if_neg hn]
        exact respects_mkCat _ _ (ihr hr) hs
  | alt r s ihr ihs =>
      rcases h with ⟨hr, hs⟩
      exact respects_mkAlt _ _ (ihr hr) (ihs hs)
  | star r ih =>
      exact respects_mkCat _ _ (ih h) h

theorem void_deriv_of_not {P : Char → Prop} (r : RE) (c : Char)
    (h : Respects P r) (hc : ¬ P c) : void (deriv r c) = true := by
  induction r with
  | empty => rfl
  | eps => rfl
  | cls p =>
      have hp : p c = false := by
        by_contra hne
        exact hc (h c (by simpa using hne))
      simp [deriv, hp, void]
  | cat r s ihr ihs =>
      rcases h with ⟨hr, hs⟩
      by_cases hn : nullable r = true
      · rw [deriv, if_pos hn]
        exact void_mkAlt _ _ (void_mkCat_left _ _ (ihr hr)) (ihs hs)
      · rw [deriv, if_neg hn]
        exact void_mkCat_left _ _ (ihr hr)
  | alt r s ihr ihs =>
      rcases h with ⟨hr, hs⟩
      exact void_mkAlt _ _ (ihr hr) (ihs hs)
  | star r ih =>
      exact void_mkCat_left _ _ (ih h)

/-- A list accepted by `r` consists only of characters its classes allow. -/
theorem all_of_matchList {P : Char → Prop} (r : RE) (cs : List Char)
    (hR : Respects P r) (hm : matchList r cs = true) : ∀ c ∈ cs, P c := by
  induction cs generalizing r with
  | nil => intro c hc; cases hc
  | cons c cs ih =>
      have hm' : matchList (deriv r c) cs = true := by
        simpa [matchList, List.foldl] using hm
      intro d hd
      rcases List.mem_cons.mp hd with rfl | hd'
      · by_contra hPd
        rw [matchList_eq_false_of_void _ _ (void_deriv_of_not r d hR hPd)] at hm'
        cases hm'
      · exact ih (deriv r c) (respects_deriv r c hR) hm' d hd'

/-- The eight characters the path property bans. -/
def bannedPathChar (c : Char) : Bool :=
  c == '*' || c == '?' || c == '"' || c == '<' || c == '>' ||
  c == '|' || c == ':' || c == '\\'

theorem slashChar_ok (c : Char) (hc : (c == '/') = true) :
    bannedPathChar c = false := by
  have hc' : c = '/' := by simpa using hc
  subst hc'
  decide

theorem pathChar_ok (c : Char) (hc : pathChar c = true) :
    bannedPathChar c = false := by
  simp only [pathChar, Bool.not_eq_true', Bool.or_eq_false_iff,
    beq_eq_false_iff_ne, ne_eq] at hc
  simp only [bannedPathChar, Bool.or_eq_false_iff, beq_eq_false_iff_ne, ne_eq]
  tauto

theorem pathRE_respects : Respects (fun c => bannedPathChar c = false) pathRE := by
  simp only [pathRE, rOpt, rPlus, chr, Respects]
  repeat' apply And.intro
  all_goals first | exact slashChar_ok | exact pathChar_ok | trivial

/-! ## The Task list view (frontend/src/api/user.js, `<script>` block)

The component's reactive fields become a record `ViewState`; each method
becomes a function on `ViewState`.  The asynchronous HTTP call made by a
method is modelled by passing its outcome (`ReqResult`) as an argument:
`.then(cb)` runs `cb` on the payload only on success, and `.finally(cb)`
runs `cb` in both outcomes.  Requests issued and `$message` notifications
shown are returned explicitly. -/

/-- A row of the task table (the fields the view reads). -/
structure TaskRow where
  uuid : String
  settingsName : String
  user : String
  create_time : Nat
  status : Int
deriving DecidableEq

/-- The `{payload: {entry, count}}` envelope of the list endpoint. -/
structure Payload where
  entry : List TaskRow
  count : Nat
deriving DecidableEq

/-- Outcome of an asynchronous HTTP request: fulfilled with a payload, or
rejected. -/
inductive ReqResult (α : Type) where
  | ok : α → ReqResult α
  | err : ReqResult α
deriving DecidableEq

/-- The component's reactive fields (its `data()` object, with
`listQuery` flattened into `page` and `limit`). -/
structure ViewState where
  tableKey : Nat
  list : Option (List TaskRow)
  total : Nat
  listLoading : Bool
  deleteDialogLoading : Bool
  page : Nat
  limit : Nat
  selectedData : TaskRow
  deleteDialogVisible : Bool
deriving DecidableEq

/-- The initial `data()` of the component: `list: null`, `total: 0`,
`listLoading: true`, `deleteDialogLoading: false`,
`listQuery: {page: 1, limit: 25}`, `selectedData: {uuid: ''}`,
`deleteDialogVisible: false`. -/
def initialState : ViewState :=
  { tableKey := 0
    list := none
    total := 0
    listLoading := true
    deleteDialogLoading := false
    page := 1
    limit := 25
    selectedData :=
      { uuid := "", settingsName := "", user := "", create_time := 0, status := 0 }
    deleteDialogVisible := false }

/-- The `statusFilter` lookup table mapping a status code to its display
label; a key outside `'0'..'8'` yields `undefined` (`none`). -/
def statusFilter (status : Int) : Option String :=
  if status = 0 then some "Scheduled"
  else if status = 1 then some "Running"
  else if status = 2 then some "Succeeded"
  else if status = 3 then some "Failed"
  else if status = 4 then some "Deleting"
  else if status = 5 then some "Pending"
  else if status = 6 then some "TLE"
  else if status = 7 then some "Waiting"
  else if status = 8 then some "MLE"
  else none

/-- The `statusTypeFilter` lookup table mapping a status code to its
`el-tag` severity; a key outside `'0'..'8'` yields `undefined` (`none`). -/
def statusTypeFilter (status : Int) : Option String :=
  if status = 0 then some "info"
  else if status = 1 then some ""
  else if status = 2 then some "success"
  else if status = 3 then some "danger"
  else if status = 4 then some "info"
  else if status = 5 then some "warning"
  else if status = 6 then some "danger"
  else if status = 7 then some "warning"
  else if status = 8 then some "danger"
  else none

/-- `getList()`: `getTaskList(this.listQuery.page).then(response => {
this.list = response.payload.entry; this.total = response.payload.count;
}).finally(() => { this.listLoading = false; })`. -/
def getList (s : ViewState) (r : ReqResult Payload) : ViewState :=
  match r with
  | .ok p => { s with list := some p.entry, total := p.count, listLoading := false }
  | .err => { s with listLoading := false }

/-- `handleDelete(row)`: `this.selectedData = Object.assign({}, row);
this.deleteDialogVisible = true;`. -/
def handleDelete (s : ViewState) (row : TaskRow) : ViewState :=
  { s with selectedData := row, deleteDialogVisible := true }

/-- What a run of the `deleteTask` method produces: the uuid arguments of
the delete requests it issues, the `$message` notifications it shows
(message text and type), and the final component state. -/
structure DeleteRun where
  requests : List String
  messages : List (String × String)
  state : ViewState
deriving DecidableEq

/-- `deleteTask()`: `this.deleteDialogLoading = true;
deleteTask(this.selectedData.uuid).then(response => {
this.$message({message: 'Task Deleted', type: 'success'});
}).finally(() => { this.deleteDialogLoading = false;
this.deleteDialogVisible = false; })`.  The `ok` argument is whether the
delete request is fulfilled. -/
def deleteTask (s : ViewState) (ok : Bool) : DeleteRun :=
  let s1 : ViewState := { s with deleteDialogLoading := true }
  { requests := [s1.selectedData.uuid]
    messages := if ok then [("Task Deleted", "success")] else []
    state := { s1 with deleteDialogLoading := false, deleteDialogVisible := false } }

/-! ## The polling timer (created / beforeDestroy hooks)

`created()` runs `this.polling = window.setInterval(this.getList, 3*1000);
this.getList();` and `beforeDestroy()` runs `clearInterval(this.polling)`.
`window.setInterval` registered at time `start` with period `p` fires at
`start + p`, `start + 2p`, ...; `clearInterval` at time `d` suppresses
every firing at or after `d`.  Times are in milliseconds;
`fuel` bounds how many potential timer ticks are observed. -/

/-- The firing times of an interval timer registered at `start` with
period `p`, observed for `fuel` ticks. -/
def intervalFires (p : Nat) (start : Nat) : Nat → List Nat
  | 0 => []
  | Nat.succ n => (start + p) :: intervalFires p (start + p) n

/-- The times at which `getList` is invoked by the hooks: once immediately
at activation time 0 (the direct `this.getList()` call in `created`), and
at each firing of the 3000 ms interval that happens strictly before the
`beforeDestroy` time `d`. -/
def pollFetchTimes (fuel : Nat) (d : Nat) : List Nat :=
  0 :: (intervalFires 3000 0 fuel).filter (fun t => t < d)

theorem intervalFires_mem (p start n t : Nat) :
    t ∈ intervalFires p start n ↔ ∃ k, 1 ≤ k ∧ k ≤ n ∧ t = start + p * k := by
  induction n generalizing start with
  | zero =>
      simp only [intervalFires, List.not_mem_nil, false_iff, not_exists]
      intro k hk
      omega
  | succ n ih =>
      simp only [intervalFires, List.mem_cons, ih]
      constructor
      · rintro (rfl | ⟨k, hk1, hkn, rfl⟩)
        · exact ⟨1, le_refl 1, by omega, by ring⟩
        · exact ⟨k + 1, by omega, by omega, by ring⟩
      · rintro ⟨k, hk1, hkn, rfl⟩
        rcases Nat.exists_eq_add_of_le hk1 with ⟨j, rfl⟩
        rcases Nat.eq_zero_or_pos j with rfl | hj
        · left; ring
        · right; exact ⟨j, by omega, by omega, by ring⟩

/-! ## The claims -/

/-- Claim C1: on a fulfilled page fetch, `getList` replaces the displayed
collection by `payload.entry` and the total by `payload.count`; on a
rejected fetch every field is left unchanged except the loading flag; in
both outcomes `listLoading` ends up `false`. -/
theorem getList_spec (s : ViewState) (p : Payload) :
    ((getList s (.ok p)).list = some p.entry ∧
     (getList s (.ok p)).total = p.count ∧
     (getList s (.ok p)).listLoading = false) ∧
    ((getList s .err).tableKey = s.tableKey ∧
     (getList s .err).list = s.list ∧
     (getList s .err).total = s.total ∧
     (getList s .err).page = s.page ∧
     (getList s .err).limit = s.limit ∧
     (getList s .err).selectedData = s.selectedData ∧
     (getList s .err).deleteDialogVisible = s.deleteDialogVisible ∧
     (getList s .err).deleteDialogLoading = s.deleteDialogLoading ∧
     (getList s .err).listLoading = false) := by
  simp [getList]

/-- Claim C2: confirming the delete dialog issues exactly one delete
request, its argument is the uuid of the row selected when the dialog was
opened, and afterwards — whether the request is fulfilled or rejected —
the dialog-loading flag is `false` and the dialog is closed. -/
theorem deleteTask_spec (s : ViewState) (row : TaskRow) (ok : Bool) :
    (deleteTask (handleDelete s row) ok).requests = [row.uuid] ∧
    (deleteTask (handleDelete s row) ok).state.deleteDialogLoading = false ∧
    (deleteTask (handleDelete s row) ok).state.deleteDialogVisible = false := by
  simp [deleteTask, handleDelete]

/-- Claim C3 counterexample: the user-visible outcome of `deleteTask` is
NOT the same for a succeeding and a failing delete request — the success
notification is shown only on fulfillment (the `$message` call sits in the
`.then` handler, which a rejection skips). -/
theorem deleteTask_outcome_differs :
    ¬ ((deleteTask (handleDelete initialState
          { uuid := "u1", settingsName := "n", user := "u",
            create_time := 0, status := 1 }) true).messages
       = (deleteTask (handleDelete initialState
          { uuid := "u1", settingsName := "n", user := "u",
            create_time := 0, status := 1 }) false).messages) := by
  decide

/-- Claim C3 (amended): `deleteTask` shows the success notification only
when the delete request is fulfilled and shows nothing on rejection; in
both outcomes the dialog-loading flag is cleared and the dialog closed. -/
theorem deleteTask_notification (s : ViewState) (ok : Bool) :
    (deleteTask s true).messages = [("Task Deleted", "success")] ∧
    (deleteTask s false).messages = [] ∧
    (deleteTask s ok).state.deleteDialogLoading = false ∧
    (deleteTask s ok).state.deleteDialogVisible = false := by
  simp [deleteTask]

/-- Claim C4: each of the 9 defined status codes maps to its documented
label under `statusFilter` and its documented severity under
`statusTypeFilter`. -/
theorem status_lookup_defined :
    statusFilter 0 = some "Scheduled" ∧ statusFilter 1 = some "Running" ∧
    statusFilter 2 = some "Succeeded" ∧ statusFilter 3 = some "Failed" ∧
    statusFilter 4 = some "Deleting" ∧ statusFilter 5 = some "Pending" ∧
    statusFilter 6 = some "TLE" ∧ statusFilter 7 = some "Waiting" ∧
    statusFilter 8 = some "MLE" ∧
    statusTypeFilter 0 = some "info" ∧ statusTypeFilter 1 = some "" ∧
    statusTypeFilter 2 = some "success" ∧ statusTypeFilter 3 = some "danger" ∧
    statusTypeFilter 4 = some "info" ∧ statusTypeFilter 5 = some "warning" ∧
    statusTypeFilter 6 = some "danger" ∧ statusTypeFilter 7 = some "warning" ∧
    statusTypeFilter 8 = some "danger" := by
  decide

/-- Claim C5: for every status code outside 0–8, both lookups return the
undefined value (`none`) rather than any default label or tag. -/
theorem status_lookup_default (code : Int) (h : code < 0 ∨ 8 < code) :
    statusFilter code = none ∧ statusTypeFilter code = none := by
  unfold statusFilter statusTypeFilter
  refine ⟨?_, ?_⟩ <;> (repeat rw [if_neg (by omega)])

/-- Witness for C5 at the concrete out-of-range code 9. -/
theorem status_lookup_default_w :
    statusFilter 9 = none ∧ statusTypeFilter 9 = none :=
  status_lookup_default 9 (by omega)

/-- Claim C6: while the view is active a fetch is issued at activation
time 0 and at every 3000 ms interval tick (3000·k) that precedes teardown,
and no fetch at all is issued at or after the teardown time `d`. -/
theorem polling_spec (fuel d k : Nat) (hd : 0 < d) (hk1 : 1 ≤ k)
    (hkf : k ≤ fuel) (hkd : 3000 * k < d) :
    0 ∈ pollFetchTimes fuel d ∧
    3000 * k ∈ pollFetchTimes fuel d ∧
    ∀ t ∈ pollFetchTimes fuel d, t < d := by
  refine ⟨by simp [pollFetchTimes], ?_, ?_⟩
  · simp only [pollFetchTimes, List.mem_cons, List.mem_filter,
      intervalFires_mem, decide_eq_true_eq]
    exact Or.inr ⟨⟨k, hk1, hkf, by ring⟩, hkd⟩
  · intro t ht
    simp only [pollFetchTimes, List.mem_cons, List.mem_filter,
      decide_eq_true_eq] at ht
    rcases ht with rfl | ⟨_, htd⟩
    · exact hd
    · exact htd

/-- Witness for C6: two observed ticks, teardown at 7000 ms, k = 2. -/
theorem polling_spec_w :
    0 ∈ pollFetchTimes 2 7000 ∧
    3000 * 2 ∈ pollFetchTimes 2 7000 ∧
    ∀ t ∈ pollFetchTimes 2 7000, t < 7000 :=
  polling_spec 2 7000 2 (by decide) (by decide) (by decide) (by decide)

/-- Claim C7: `validateEmail` accepts the well-formed address `a@b.co` and
rejects the malformed `a@b` (no dot-separated top-level domain) and
`a b@c.com` (whitespace in the local part). -/
theorem validateEmail_spec :
    validateEmail "a@b.co" = true ∧ validateEmail "a@b" = false ∧
    validateEmail "a b@c.com" = false := by
  refine ⟨by decide, by decide, by decide⟩

/-- Claim C8: `validatePath` accepts `/a/b/c`, and rejects every string
containing any of the characters `*`, `?`, `"`, `<`, `>`, `|`, `:`, `\`. -/
theorem validatePath_spec (s : String)
    (h : ∃ c ∈ s.data, bannedPathChar c = true) :
    validatePath "/a/b/c" = true ∧ validatePath s = false := by
  refine ⟨by decide, ?_⟩
  obtain ⟨c, hc, hb⟩ := h
  by_contra hm
  rw [Bool.not_eq_false] at hm
  have hall := all_of_matchList pathRE s.data pathRE_respects hm
  rw [hall c hc] at hb
  cases hb

/-- Witness for C8 at the concrete banned-character input `a*b`. -/
theorem validatePath_spec_w :
    validatePath "/a/b/c" = true ∧ validatePath "a*b" = false :=
  validatePath_spec "a*b" ⟨'*', by decide, by decide⟩

/-- Claim C9: `isExternal` accepts `https://x` and rejects `/local/path`. -/
theorem isExternal_spec :
    isExternal "https://x" = true ∧ isExternal "/local/path" = false := by
  refine ⟨by decide, by decide⟩

/-- Claim C10: `getList` modifies only the task list, the total count and
the list-loading flag — the stored selected row and the dialog flags are
untouched — and consequently a confirmed delete after any number of
interleaved polls still sends the uuid captured when the dialog opened. -/
theorem getList_frame (s s0 : ViewState) (r : ReqResult Payload)
    (row : TaskRow) (evs : List (ReqResult Payload)) (ok : Bool) :
    ((getList s r).tableKey = s.tableKey ∧
     (getList s r).page = s.page ∧
     (getList s r).limit = s.limit ∧
     (getList s r).selectedData = s.selectedData ∧
     (getList s r).deleteDialogVisible = s.deleteDialogVisible ∧
     (getList s r).deleteDialogLoading = s.deleteDialogLoading) ∧
    (deleteTask (evs.foldl getList (handleDelete s0 row)) ok).requests
      = [row.uuid] := by
  constructor
  · cases r <;> simp [getList]
  · have hsel : ∀ (l : List (ReqResult Payload)) (st : ViewState),
        (l.foldl getList st).selectedData = st.selectedData := by
      intro l
      induction l with
      | nil => intro st; rfl
      | cons e l ih =>
          intro st
          have := ih (getList st e)
          cases e <;> simpa [List.foldl, getList] using this
    simp [deleteTask, hsel, handleDelete]

end CloudScheduler
